import Mathlib

/-!
# Verification of the BayesianTracker data-exchange layer (`btrack/dataio.py`)

This file gives a shallow embedding of the track import/export layer of the
BayesianTracker repository and proves (or refutes) the specification claims
about it.  Python values are embedded as Lean inductive types, numpy floats
as rationals, Python exceptions as an explicit `PyError` type, and the file
system as an association list from names to file contents.  Functions that
in Python may raise carry the file-system state at the point of the raise,
so that "no file was created before the failure" is expressible.

The modules `btypes` (the `Tracklet` / `PyTrackObject` data model) and
`constants` (the `EXPORT_FORMATS` list), and the methods
`HDF5_FileHandler.write_tracks` / `write_dummies`, are referenced by
`dataio.py` but their code is not part of the repository snapshot; those
definitions are modelled from the specification and marked as such.
-/

/-- Python exceptions raised by the data layer. -/
inductive PyError where
  | typeError (msg : String)
  | valueError (msg : String)
  | ioError (msg : String)
  | indexError (msg : String)
  | keyError (msg : String)
  | attributeError (msg : String)
  | assertionError
  deriving DecidableEq, Repr

/-- A Python scalar as it may appear inside a reference-track list:
either an integer (`int`/`long`) or something else. -/
inductive PyScalar where
  | int (n : Int)
  | nonInt (descr : String)
  deriving DecidableEq, Repr

/-- Modelled from the spec (§3): one detection held by a `btypes.Tracklet`
(`btypes` is not in the repository snapshot). -/
structure TrackObjectRec where
  id : Int
  t : Int
  x : ℚ
  y : ℚ
  z : ℚ
  dummy : Bool
  label : Int
  type : Int
  probability : List ℚ
  deriving DecidableEq, Repr

/-- Modelled from the spec (§3): the `btypes.Tracklet` data model
(`btypes` is not in the repository snapshot). -/
structure Tracklet where
  ID : Int
  parentID : Int
  rootID : Int
  fate_label : String
  cell_type : Option String
  objects : List TrackObjectRec
  deriving DecidableEq, Repr

/-- Modelled from the spec (§6): the key/value document produced by
`btypes.Tracklet.to_dict`. -/
structure TrackDict where
  ID : Int
  parentID : Int
  rootID : Int
  fate_label : String
  cell_type : Option String
  objects : List TrackObjectRec
  deriving DecidableEq, Repr

/-- Modelled from the spec (§6): `btypes.Tracklet.to_dict` serialises every
attribute of the track plus the object list. -/
def Tracklet.to_dict (t : Tracklet) : TrackDict :=
  ⟨t.ID, t.parentID, t.rootID, t.fate_label, t.cell_type, t.objects⟩

/-- Modelled from the spec (§4.3): `btypes.Tracklet.to_array` stacks one row
per object with column order `[x, y, frame, trackID, parentID, rootID,
class_label]`. -/
def Tracklet.to_array (t : Tracklet) : List (List ℚ) :=
  t.objects.map (fun o =>
    [o.x, o.y, (o.t : ℚ), (t.ID : ℚ), (t.parentID : ℚ), (t.rootID : ℚ), (o.label : ℚ)])

/-- An element of the Python list passed to the exporters: a
`btypes.Tracklet`, a plain list (an HDF5 reference track), or some other
Python value. -/
inductive PyTrack where
  | tracklet (t : Tracklet)
  | refs (r : List PyScalar)
  | other (descr : String)
  deriving DecidableEq, Repr

/-- The `btypes.PyTrackObject` produced by the HDF5 readers. -/
structure PyTrackObject where
  ID : Int
  t : ℚ
  x : ℚ
  y : ℚ
  z : ℚ
  dummy : Bool
  label : ℚ
  probability : List ℚ
  type : Int
  deriving DecidableEq, Repr

/-- One class subgroup of the current-schema `objects` group: the group name
and the two datasets `coords` (rows `[t, x, y, z, type]`) and `labels`. -/
structure ObjClassGroup where
  name : String
  coords : List (List ℚ)
  labels : List (List ℚ)
  deriving DecidableEq, Repr

/-- The content of a current-schema HDF5 file: the per-class subgroups of
`objects` in iteration order, and the optional `tracks` and `dummies`
datasets. -/
structure HDF5File where
  objectsGroups : List ObjClassGroup
  tracksData : Option (List (List PyScalar))
  dummiesData : Option (List PyTrackObject)
  deriving DecidableEq, Repr

/-- One `frame_<n>` group of a legacy-schema HDF5 file: the `coords`
dataset and the optional `labels` dataset. -/
structure FrameData where
  coords : List (List ℚ)
  labels : Option (List (List ℚ))
  deriving DecidableEq, Repr

/-- The content of a legacy-schema HDF5 file: the `frames` group, an
association of frame-group names to frame data in `keys()` order. -/
structure LegacyFile where
  frames : List (String × FrameData)
  deriving DecidableEq, Repr

/-- The JSON manifest written by `export_all_tracks_JSON`. -/
structure ManifestData where
  cellTypeKey : String
  path : String
  zipped : Bool
  files : List String
  deriving DecidableEq, Repr

/-- The possible on-disk artefacts of the data layer. -/
inductive FileContent where
  | jsonSingle (d : TrackDict)
  | jsonCollection (entries : List (String × TrackDict))
  | jsonManifest (m : ManifestData)
  | matFile (matrix : List (List ℚ)) (track_labels class_labels : List String)
      (fate : List (String × List Int))
  | hdf5 (f : HDF5File)
  | zipArchive (entries : List (String × TrackDict))
  deriving DecidableEq, Repr

/-- First-match lookup in an association list (Python `d[k]` /
`h5py` group indexing). -/
def assocFind {β : Type} (k : String) : List (String × β) → Option β
  | [] => none
  | p :: rest => if p.1 = k then some p.2 else assocFind k rest

/-- The file system: an association of path names to file contents; a write
shadows earlier entries for the same name. -/
abbrev FS := List (String × FileContent)

/-- Read a file (`open(.., 'r')` / `h5py.File`). -/
def FS.read (fs : FS) (n : String) : Option FileContent := assocFind n fs

/-- Create or overwrite a file (`open(.., 'w')` and writing). -/
def FS.write (fs : FS) (n : String) (c : FileContent) : FS := (n, c) :: fs

/-- Embeds `os.path.exists`. -/
def FS.exists (fs : FS) (n : String) : Bool := (fs.read n).isSome

/-- Embeds `os.remove`: delete the (first, i.e. visible) entry for a name. -/
def FS.remove (fs : FS) (n : String) : FS :=
  fs.eraseP (fun p => decide (p.1 = n))

/-- Embeds `os.path.join(dir, fn)` for a directory path without trailing
separator. -/
def pathJoin (dir fn : String) : String := dir ++ "/" ++ fn

/-- Computations that thread the file system and may raise: an exception
carries the file system as it was at the raise, so that the absence of
partial writes is expressible. -/
abbrev PyResult (α : Type) := Except (PyError × FS) α

/-!
## `fate_table` (dataio.py lines 43-55)
-/

/-- One step of the `fate_table` loop body: if the label is already a key
of the table, append the ID to its list, otherwise add a new entry
`label ↦ [ID]` at the end. -/
def ftInsert (m : List (String × List Int)) (lbl : String) (i : Int) :
    List (String × List Int) :=
  if lbl ∈ m.map Prod.fst then
    m.map (fun p => if p.1 = lbl then (p.1, p.2 ++ [i]) else p)
  else m ++ [(lbl, [i])]

/-- Embeds `fate_table(tracks)`: group track IDs by `fate_label`, in input order,
keys in first-seen order (the Python loop over `tracks` mutating a dict). -/
def fate_table (tracks : List Tracklet) : List (String × List Int) :=
  tracks.foldl (fun m t => ftInsert m t.fate_label t.ID) []

/-- First-seen-order deduplication, used to state the key-order property of
`fate_table`. -/
def firstSeen : List String → List String
  | [] => []
  | x :: xs => x :: (firstSeen xs).filter (fun y => y ≠ x)

/-!
## `check_track_type` and the JSON exporters (dataio.py lines 97-179)
-/

/-- Embeds `check_track_type(tracks)`: `isinstance(tracks[0], btypes.Tracklet)`;
indexing an empty list raises `IndexError`. -/
def check_track_type (tracks : List PyTrack) : Except PyError Bool :=
  match tracks with
  | [] => Except.error (PyError.indexError "list index out of range")
  | x :: _ =>
    match x with
    | PyTrack.tracklet _ => Except.ok true
    | _ => Except.ok false

/-- The dictionary key `"Tracklet_" + str(trk.ID)` used by `export_JSON`. -/
def keyOf (t : Tracklet) : String := "Tracklet_" ++ toString t.ID

/-- Insertion into a Python dict: overwrite in place if the key is present,
otherwise add the pair. -/
def dictInsert (d : List (String × TrackDict)) (k : String) (v : TrackDict) :
    List (String × TrackDict) :=
  if k ∈ d.map Prod.fst then
    d.map (fun p => if p.1 = k then (k, v) else p)
  else d ++ [(k, v)]

/-- The dict comprehension of `export_JSON`:
`{"Tracklet_"+str(trk.ID): trk.to_dict() for trk in tracks}`.  Computing
the key or the value of a non-`Tracklet` element raises `AttributeError`. -/
def buildDict : List PyTrack → List (String × TrackDict) →
    Except PyError (List (String × TrackDict))
  | [], d => Except.ok d
  | PyTrack.tracklet t :: rest, d =>
      buildDict rest (dictInsert d (keyOf t) t.to_dict)
  | _ :: _, _ => Except.error (PyError.attributeError "to_dict")

/-- Embeds `OrderedDict(sorted(d.items(), key=lambda t: t[1]['ID']))`: a stable
sort of the dict items by the `ID` entry of the value. -/
def sortByID (d : List (String × TrackDict)) : List (String × TrackDict) :=
  List.insertionSort (fun a b => a.2.ID ≤ b.2.ID) d

/-- Embeds `export_JSON(filename, tracks)` (dataio.py lines 117-127): type-check the
first element, build the keyed documents, sort them by ID and write the
collection file. -/
def export_JSON (fs : FS) (filename : String) (tracks : List PyTrack) :
    PyResult FS :=
  match check_track_type tracks with
  | Except.error e => Except.error (e, fs)
  | Except.ok false =>
      Except.error (PyError.typeError "Tracks must be of type btypes.Tracklet", fs)
  | Except.ok true =>
    match buildDict tracks [] with
    | Except.error e => Except.error (e, fs)
    | Except.ok d =>
        Except.ok (fs.write filename (FileContent.jsonCollection (sortByID d)))

/-- Embeds `export_single_track_JSON(filename, track)` (dataio.py lines 103-114):
reject non-`Tracklet` input with `TypeError`, otherwise write the single
document. -/
def export_single_track_JSON (fs : FS) (filename : String) (track : PyTrack) :
    PyResult FS :=
  match track with
  | PyTrack.tracklet t =>
      Except.ok (fs.write filename (FileContent.jsonSingle t.to_dict))
  | _ => Except.error (PyError.typeError "Tracks must be of type btypes.Tracklet", fs)

/-- Embeds `str(cell_type)` for the optional cell-type tag (`str(None)` is
`"None"`). -/
def cellTypeStr : Option String → String
  | some s => s
  | none => "None"

/-- The per-track write loop of `export_all_tracks_JSON`: write
`track_<ID>_<cell_type>.json` for each track into the export directory and
collect the file names.  Accessing `.ID` of a non-`Tracklet` raises
`AttributeError`. -/
def writeTracksLoop (dir ct : String) :
    FS → List PyTrack → PyResult (FS × List String)
  | fs, [] => Except.ok (fs, [])
  | fs, PyTrack.tracklet t :: rest =>
    let fn := "track_" ++ toString t.ID ++ "_" ++ ct ++ ".json"
    let fs' := fs.write (pathJoin dir fn) (FileContent.jsonSingle t.to_dict)
    (match writeTracksLoop dir ct fs' rest with
     | Except.error e => Except.error e
     | Except.ok (fs'', fns) => Except.ok (fs'', fn :: fns))
  | fs, _ :: _ => Except.error (PyError.attributeError "ID", fs)

/-- The zip-archive loop of `export_all_tracks_JSON`: read each loose
per-track file, add it to the archive, and delete the loose file. -/
def buildZipLoop (dir : String) :
    FS → List String → PyResult (FS × List (String × TrackDict))
  | fs, [] => Except.ok (fs, [])
  | fs, fn :: fns =>
    match fs.read (pathJoin dir fn) with
    | some (FileContent.jsonSingle d) =>
      let fs' := fs.remove (pathJoin dir fn)
      (match buildZipLoop dir fs' fns with
       | Except.error e => Except.error e
       | Except.ok (fs'', entries) => Except.ok (fs'', (fn, d) :: entries))
    | _ => Except.error (PyError.ioError "no such file", fs)

/-- Embeds `export_all_tracks_JSON(export_dir, tracks, cell_type, as_zip_archive)`
(dataio.py lines 130-179): assert the cell type, write the per-track files,
optionally bundle them into a zip archive deleting the loose files, and
write the manifest. -/
def export_all_tracks_JSON (fs : FS) (export_dir : String)
    (tracks : List PyTrack) (cell_type : Option String)
    (as_zip_archive : Bool) : PyResult FS :=
  if cell_type ∈ [some "GFP", some "RFP", some "iRFP", some "Phase",
      (none : Option String)] then
    let ct := cellTypeStr cell_type
    match writeTracksLoop export_dir ct fs tracks with
    | Except.error e => Except.error e
    | Except.ok (fs1, filenames) =>
      let afterZip : PyResult FS :=
        if as_zip_archive then
          match buildZipLoop export_dir fs1 filenames with
          | Except.error e => Except.error e
          | Except.ok (fs2, entries) =>
              Except.ok (fs2.write (pathJoin export_dir ("tracks_" ++ ct ++ ".zip"))
                (FileContent.zipArchive entries))
        else Except.ok fs1
      match afterZip with
      | Except.error e => Except.error e
      | Except.ok fs3 =>
          Except.ok (fs3.write (pathJoin export_dir ("tracks_" ++ ct ++ ".json"))
            (FileContent.jsonManifest ⟨ct, export_dir, as_zip_archive, filenames⟩))
  else Except.error (PyError.assertionError, fs)

/-!
## `export_MATLAB` (dataio.py lines 228-243)
-/

/-- Extract the `Tracklet` payloads of a track list; accessing `to_array`
of a non-`Tracklet` element raises `AttributeError`
(`np.vstack([trk.to_array() for trk in tracks])`). -/
def getTracklets : List PyTrack → Except PyError (List Tracklet)
  | [] => Except.ok []
  | PyTrack.tracklet t :: rest =>
    (match getTracklets rest with
     | Except.error e => Except.error e
     | Except.ok ts => Except.ok (t :: ts))
  | _ :: _ => Except.error (PyError.attributeError "to_array")

/-- Embeds `export_MATLAB(filename, tracks)`: type-check the first element, stack
all per-track arrays, and write the container with the fixed label vectors
and the fate table. -/
def export_MATLAB (fs : FS) (filename : String) (tracks : List PyTrack) :
    PyResult FS :=
  match check_track_type tracks with
  | Except.error e => Except.error (e, fs)
  | Except.ok false =>
      Except.error (PyError.typeError "Tracks must be of type btypes.Tracklet", fs)
  | Except.ok true =>
    match getTracklets tracks with
    | Except.error e => Except.error (e, fs)
    | Except.ok ts =>
        Except.ok (fs.write filename (FileContent.matFile
          ((ts.map Tracklet.to_array).flatten)
          ["x", "y", "frm", "ID", "parentID", "rootID", "class_label"]
          ["interphase", "prometaphase", "metaphase", "anaphase", "apoptosis"]
          (fate_table ts)))

/-!
## The format router `export` (dataio.py lines 59-92)
-/

/-- Index of the last occurrence of a character (`str.rfind`). -/
def rfindChar : List Char → Char → Option Nat
  | [], _ => none
  | c :: rest, target =>
    match rfindChar rest target with
    | some i => some (i + 1)
    | none => if c = target then some 0 else none

/-- Embeds `os.path.splitext(p)`: split off the extension at the last dot of the
last path component, unless every character of the component before that
dot is itself a dot (leading-dot names have no extension). -/
def splitext (p : String) : String × String :=
  let cs := p.data
  match rfindChar cs '.' with
  | none => (p, "")
  | some d =>
    let s : Nat :=
      match rfindChar cs '/' with
      | none => 0
      | some si => si + 1
    if s ≤ d ∧ ((cs.drop s).take (d - s)).any (fun c => c ≠ '.') = true then
      (⟨cs.take d⟩, ⟨cs.drop d⟩)
    else (p, "")

/-- Modelled from the spec (§6, §4.1): `constants.EXPORT_FORMATS` (the
`constants` module is not in the repository snapshot); the three recognised
suffixes. -/
def EXPORT_FORMATS : List String := [".json", ".mat", ".hdf5"]

/-!
## `export_HDF` and the HDF5 write path (dataio.py lines 247-287)
-/

/-- Collect the reference lists of a track batch, or `none` if some element
is not a plain list. -/
def allRefLists : List PyTrack → Option (List (List PyScalar))
  | [] => some []
  | PyTrack.refs r :: rest =>
    (match allRefLists rest with
     | some rs => some (r :: rs)
     | none => none)
  | _ :: _ => none

/-- Modelled from the spec (§4.4): `HDF5_FileHandler.write_tracks` (not in
the repository snapshot; only its caller `export_HDF` is).  It appends a
`tracks` dataset of integer-list reference tracks to the open file without
touching the `objects` data; it accepts only reference tracks. -/
def write_tracks (f : HDF5File) (tracks : List PyTrack) :
    Except PyError HDF5File :=
  match allRefLists tracks with
  | some rs => Except.ok { f with tracksData := some rs }
  | none => Except.error (PyError.typeError "Track references should be integers")

/-- Modelled from the spec (§4.4): `HDF5_FileHandler.write_dummies` (not in
the repository snapshot); it appends a `dummies` dataset. -/
def write_dummies (f : HDF5File) (ds : List PyTrackObject) : HDF5File :=
  { f with dummiesData := some ds }

/-- Embeds `export_HDF(filename, tracks, dummies=[])` (dataio.py lines 247-287):
dispatch on the runtime shape of `tracks[0]`.  A reference-track batch
requires an existing file and an integer first reference; a `Tracklet`
batch hits the `print 'oops!'` stub and returns normally; anything else is
a `TypeError`. -/
def export_HDF (fs : FS) (filename : String) (tracks : List PyTrack)
    (dummies : List PyTrackObject) : PyResult FS :=
  match tracks with
  | [] => Except.error (PyError.indexError "list index out of range", fs)
  | PyTrack.refs r0 :: _ =>
    if fs.exists filename = true then
      match r0 with
      | [] => Except.error (PyError.indexError "list index out of range", fs)
      | PyScalar.int _ :: _ =>
        (match fs.read filename with
         | some (FileContent.hdf5 f) =>
           (match write_tracks f tracks with
            | Except.error e => Except.error (e, fs)
            | Except.ok f1 =>
              let f2 := if dummies = [] then f1 else write_dummies f1 dummies
              Except.ok (fs.write filename (FileContent.hdf5 f2)))
         | _ => Except.error (PyError.ioError ("unable to open file: " ++ filename), fs))
      | PyScalar.nonInt _ :: _ =>
          Except.error (PyError.typeError "Track references should be integers", fs)
    else
      Except.error (PyError.ioError ("HDF5 file does not exist: " ++ filename), fs)
  | PyTrack.tracklet _ :: _ =>
      -- the `print 'oops!'` stub: a normal return with no write and no error
      Except.ok fs
  | PyTrack.other _ :: _ =>
      Except.error (PyError.typeError "Tracks is of an unknown format.", fs)

/-- Embeds `export(filename, tracks)` (dataio.py lines 59-92): infer the format
from the extension, default to `.json` when there is none, reject
unrecognised suffixes, and dispatch to the matching codec. -/
def export' (fs : FS) (filename : String) (tracks : List PyTrack) :
    PyResult FS :=
  let fmt0 := (splitext filename).2
  let fmt := if fmt0 = "" then ".json" else fmt0
  let filename := if fmt0 = "" then filename ++ ".json" else filename
  if fmt ∈ EXPORT_FORMATS then
    if fmt = ".json" then export_JSON fs filename tracks
    else if fmt = ".mat" then export_MATLAB fs filename tracks
    else export_HDF fs filename tracks []
  else Except.error (PyError.valueError "Export format not recognised", fs)

/-!
## HDF5 current-schema reader (dataio.py lines 394-485)
-/

/-- Truncation toward zero of a rational, as performed by
`numpy .astype('int')` and Python `int()` on a float.  `Int.div` is
T-division, which truncates toward zero; the denominator is positive. -/
def truncQ (q : ℚ) : Int := Int.tdiv q.num (q.den : Int)

/-- Embeds `HDF5_FileHandler.new_PyTrackObject(txyz, label, obj_type)` (dataio.py
lines 465-485): `label[0]` is the class label, `t` is truncated to an
integer, `x`, `y`, `z` are taken from the row, `dummy` is `False`, the
probability is a single zero and `type` is the supplied group index. -/
def new_PyTrackObject_cur (ID : Int) (txyz : List ℚ) (label : List ℚ)
    (obj_type : Int) : Except PyError PyTrackObject :=
  match label.get? 0 with
  | none => Except.error (PyError.indexError "index 0 is out of bounds")
  | some class_label =>
    match txyz.get? 0, txyz.get? 1, txyz.get? 2, txyz.get? 3 with
    | some t0, some x, some y, some z =>
        Except.ok ⟨ID, ((truncQ t0 : Int) : ℚ), x, y, z, false, class_label,
          [0], obj_type⟩
    | _, _, _, _ => Except.error (PyError.indexError "index is out of bounds")

/-- The row loop of `HDF5_FileHandler.objects` for one class group:
`[self.new_PyTrackObject(txyz[i,:], label=labels[i,:], obj_type=ci+1) for i
in range(n_obj)]`, with the instance ID counter incremented per object.
Running out of label rows is an `IndexError` on `labels[i,:]`. -/
def curRows (ID : Int) (obj_type : Int) :
    List (List ℚ) → List (List ℚ) → Except PyError (List PyTrackObject)
  | [], _ => Except.ok []
  | c :: cs, l :: ls =>
    (match new_PyTrackObject_cur ID c l obj_type with
     | Except.error e => Except.error e
     | Except.ok o =>
       (match curRows (ID + 1) obj_type cs ls with
        | Except.error e => Except.error e
        | Except.ok os => Except.ok (o :: os)))
  | _ :: _, [] => Except.error (PyError.indexError "index is out of bounds")

/-- The class-group loop of `HDF5_FileHandler.objects`: iterate the groups
in `keys()` order, with types `ci+1` and the ID counter carried across
group boundaries. -/
def curGroups (ID : Int) (ci : Int) :
    List ObjClassGroup → Except PyError (List PyTrackObject)
  | [] => Except.ok []
  | g :: gs =>
    (match curRows ID (ci + 1) g.coords g.labels with
     | Except.error e => Except.error e
     | Except.ok os =>
       (match curGroups (ID + g.coords.length) (ci + 1) gs with
        | Except.error e => Except.error e
        | Except.ok rest => Except.ok (os ++ rest)))

/-- The `objects` property of `HDF5_FileHandler` (dataio.py lines 433-453):
read every class group, reconstructing one object per coordinate row with a
monotonically increasing ID starting at 0. -/
def HDF5_objects (f : HDF5File) : Except PyError (List PyTrackObject) :=
  curGroups 0 0 f.objectsGroups

/-!
## HDF5 legacy-schema reader (dataio.py lines 291-391)
-/

/-- The first maximal run of digits in a character list, if any. -/
def firstDigitRun : List Char → Option (List Char)
  | [] => none
  | c :: rest =>
    if c.isDigit then some (c :: rest.takeWhile Char.isDigit)
    else firstDigitRun rest

/-- Decimal value of a digit list. -/
def digitsToNat (ds : List Char) : Nat :=
  ds.foldl (fun n c => n * 10 + (c.toNat - 48)) 0

/-- Embeds `lambda f: int(re.search('([0-9]+)', f).group(0))`: the numeral embedded
in a frame-group name; `none` when the name holds no digit (in which case
`re.search` returns `None` and `.group` raises `AttributeError`). -/
def lambda_frm (s : String) : Option Nat :=
  (firstDigitRun s.data).map digitsToNat

/-- Embeds `sorted(self._hdf['frames'].keys(), key=lambda_frm)`: a stable sort of
the frame names by embedded numeral. -/
def sortFrameNames (names : List String) : List String :=
  List.insertionSort
    (fun a b => (lambda_frm a).getD 0 ≤ (lambda_frm b).getD 0) names

/-- Embeds `HDF5_FileHandler_LEGACY.new_PyTrackObject(ID, txyz, label, type)`
(dataio.py lines 373-391): `t`, `x`, `y`, `z` come from the row (`t` is not
truncated), the class label is `label[0]` when a label row is present and 0
otherwise, and `type` is `int(type)`. -/
def new_PyTrackObject_legacy (ID : Int) (txyz : List ℚ)
    (label : Option (List ℚ)) (type0 : ℚ) : Except PyError PyTrackObject :=
  match label with
  | some l =>
    (match l.get? 0 with
     | none => Except.error (PyError.indexError "index 0 is out of bounds")
     | some class_label =>
       (match txyz.get? 0, txyz.get? 1, txyz.get? 2, txyz.get? 3 with
        | some t0, some x, some y, some z =>
            Except.ok ⟨ID, t0, x, y, z, false, class_label, [0], truncQ type0⟩
        | _, _, _, _ => Except.error (PyError.indexError "index is out of bounds")))
  | none =>
    (match txyz.get? 0, txyz.get? 1, txyz.get? 2, txyz.get? 3 with
     | some t0, some x, some y, some z =>
         Except.ok ⟨ID, t0, x, y, z, false, 0, [0], truncQ type0⟩
     | _, _, _, _ => Except.error (PyError.indexError "index is out of bounds"))

/-- The row loop of the legacy `objects` property for one frame: the label
row `labels[o,:]` is read when a labels dataset is present, then
`object_type = txyz[o,4]` is read from coordinate column 4 and the object
is built. -/
def legacyRows (ID : Int) :
    List (List ℚ) → Option (List (List ℚ)) → Except PyError (List PyTrackObject)
  | [], _ => Except.ok []
  | c :: cs, some ls =>
    (match ls.get? 0 with
     | none => Except.error (PyError.indexError "index is out of bounds")
     | some lrow =>
       (match c.get? 4 with
        | none => Except.error (PyError.indexError "index 4 is out of bounds")
        | some object_type =>
          (match new_PyTrackObject_legacy ID c (some lrow) object_type with
           | Except.error e => Except.error e
           | Except.ok o =>
             (match legacyRows (ID + 1) cs (some (ls.drop 1)) with
              | Except.error e => Except.error e
              | Except.ok os => Except.ok (o :: os)))))
  | c :: cs, none =>
    (match c.get? 4 with
     | none => Except.error (PyError.indexError "index 4 is out of bounds")
     | some object_type =>
       (match new_PyTrackObject_legacy ID c none object_type with
        | Except.error e => Except.error e
        | Except.ok o =>
          (match legacyRows (ID + 1) cs none with
           | Except.error e => Except.error e
           | Except.ok os => Except.ok (o :: os))))

/-- Processing of one legacy frame: look up the frame group, check the
`assert txyz.shape[0] == labels.shape[0]` when a labels dataset is present,
and run the row loop. -/
def legacyFrame (f : LegacyFile) (ID : Int) (name : String) :
    Except PyError (List PyTrackObject) :=
  match assocFind name f.frames with
  | none => Except.error (PyError.keyError name)
  | some fd =>
    match fd.labels with
    | some ls =>
        if ls.length = fd.coords.length then legacyRows ID fd.coords (some ls)
        else Except.error PyError.assertionError
    | none => legacyRows ID fd.coords none

/-- The frame loop of the legacy `objects` property, carrying the global ID
counter across frames. -/
def legacyFramesLoop (f : LegacyFile) (ID : Int) :
    List String → Except PyError (List PyTrackObject)
  | [] => Except.ok []
  | n :: ns =>
    (match legacyFrame f ID n with
     | Except.error e => Except.error e
     | Except.ok os =>
       (match legacyFramesLoop f (ID + (os.length : Int)) ns with
        | Except.error e => Except.error e
        | Except.ok rest => Except.ok (os ++ rest)))

/-- The `objects` property of `HDF5_FileHandler_LEGACY` (dataio.py lines
326-358): sort the frame names by embedded numeral, then read each frame in
that order assigning globally increasing IDs from 0. -/
def legacy_objects (f : LegacyFile) : Except PyError (List PyTrackObject) :=
  if (f.frames.map Prod.fst).all (fun n => (lambda_frm n).isSome) then
    legacyFramesLoop f 0 (sortFrameNames (f.frames.map Prod.fst))
  else Except.error (PyError.attributeError "group")

/-!
## Theorems

### Helper lemmas about association lists and `fate_table`
-/

theorem assocFind_eq_none_iff {β : Type} (k : String) (m : List (String × β)) :
    assocFind k m = none ↔ k ∉ m.map Prod.fst := by
  induction m with
  | nil => simp [assocFind]
  | cons p m ih =>
    simp only [List.map_cons, List.mem_cons, not_or]
    by_cases h : p.1 = k
    · simp [assocFind, h, eq_comm]
    · have h' : ¬k = p.1 := fun he => h he.symm
      simp only [assocFind, if_neg h, ih, h', not_false_iff, true_and]

theorem assocFind_append_left {β : Type} {k : String} {m : List (String × β)}
    {v : β} (m' : List (String × β)) (h : assocFind k m = some v) :
    assocFind k (m ++ m') = some v := by
  induction m with
  | nil => simp [assocFind] at h
  | cons p m ih =>
    by_cases hp : p.1 = k
    · simp [assocFind, hp] at h ⊢; exact h
    · simp [assocFind, hp] at h ⊢; exact ih h

theorem assocFind_append_right {β : Type} {k : String} {m : List (String × β)}
    (m' : List (String × β)) (h : assocFind k m = none) :
    assocFind k (m ++ m') = assocFind k m' := by
  induction m with
  | nil => simp
  | cons p m ih =>
    by_cases hp : p.1 = k
    · simp [assocFind, hp] at h
    · simp [assocFind, hp] at h ⊢; exact ih h

theorem assocFind_map_update (m : List (String × List Int)) (l lbl : String)
    (f : List Int → List Int) :
    assocFind lbl (m.map (fun p => if p.1 = l then (p.1, f p.2) else p)) =
      if lbl = l then (assocFind lbl m).map f else assocFind lbl m := by
  induction m with
  | nil => by_cases h : lbl = l <;> simp [assocFind, h]
  | cons p m ih =>
    simp only [List.map_cons]
    by_cases h1 : p.1 = l
    · by_cases h2 : lbl = l
      · subst h2
        rw [if_pos h1, if_pos rfl]
        simp [assocFind, h1, ih]
      · have hfa : ¬l = lbl := fun he => h2 he.symm
        have hpa : ¬p.1 = lbl := by rw [h1]; exact hfa
        rw [if_pos h1]
        simp only [assocFind, if_neg hpa, ih, if_neg h2]
    · by_cases h2 : p.1 = lbl
      · have hne : ¬lbl = l := fun he => h1 (h2.trans he)
        rw [if_neg h1]
        simp only [assocFind, if_pos h2, if_neg hne]
      · rw [if_neg h1]
        simp only [assocFind, if_neg h2, ih]

theorem map_fst_map_update (m : List (String × List Int)) (l : String)
    (f : List Int → List Int) :
    (m.map (fun p => if p.1 = l then (p.1, f p.2) else p)).map Prod.fst =
      m.map Prod.fst := by
  rw [List.map_map]
  apply List.map_congr_left
  intro p _
  by_cases h : p.1 = l <;> simp [h]

theorem fate_table_append_singleton (T : List Tracklet) (t : Tracklet) :
    fate_table (T ++ [t]) = ftInsert (fate_table T) t.fate_label t.ID := by
  simp [fate_table, List.foldl_append]

theorem ftInsert_assocFind (m : List (String × List Int)) (l lbl : String)
    (i : Int) :
    assocFind lbl (ftInsert m l i) =
      if lbl = l then
        (match assocFind lbl m with
         | some v => some (v ++ [i])
         | none => some [i])
      else assocFind lbl m := by
  unfold ftInsert
  by_cases hm : l ∈ m.map Prod.fst
  · rw [if_pos hm]
    simp only [assocFind_map_update m l lbl (fun v => v ++ [i])]
    by_cases h : lbl = l
    · subst h
      rcases ho : assocFind lbl m with _ | v
      · rw [assocFind_eq_none_iff] at ho; exact absurd hm ho
      · simp
    · simp [h]
  · rw [if_neg hm]
    by_cases h : lbl = l
    · subst h
      have : assocFind lbl m = none := (assocFind_eq_none_iff _ _).2 hm
      rw [assocFind_append_right _ this, this]
      simp [assocFind]
    · have h' : ¬l = lbl := fun he => h he.symm
      rcases ho : assocFind lbl m with _ | v
      · rw [assocFind_append_right _ ho]
        simp [assocFind, h, h']
      · rw [assocFind_append_left _ ho]
        simp [h]

theorem ftInsert_map_fst (m : List (String × List Int)) (l : String) (i : Int) :
    (ftInsert m l i).map Prod.fst =
      if l ∈ m.map Prod.fst then m.map Prod.fst else m.map Prod.fst ++ [l] := by
  unfold ftInsert
  by_cases hm : l ∈ m.map Prod.fst
  · rw [if_pos hm, if_pos hm]
    simp only [map_fst_map_update m l (fun v => v ++ [i])]
  · rw [if_neg hm, if_neg hm]
    simp

theorem mem_firstSeen (y : String) (xs : List String) :
    y ∈ firstSeen xs ↔ y ∈ xs := by
  induction xs with
  | nil => simp [firstSeen]
  | cons x xs ih =>
    by_cases h : y = x <;> simp [firstSeen, List.mem_filter, h, ih]

theorem nodup_firstSeen (xs : List String) : (firstSeen xs).Nodup := by
  induction xs with
  | nil => simp [firstSeen]
  | cons x xs ih =>
    refine List.Nodup.cons ?_ (ih.filter _)
    intro hx
    rw [List.mem_filter] at hx
    simp at hx

theorem firstSeen_append_singleton (xs : List String) (x : String) :
    firstSeen (xs ++ [x]) =
      if x ∈ xs then firstSeen xs else firstSeen xs ++ [x] := by
  induction xs with
  | nil => simp [firstSeen]
  | cons y xs ih =>
    have hstep : firstSeen (y :: (xs ++ [x])) =
        y :: (firstSeen (xs ++ [x])).filter (fun z => z ≠ y) := rfl
    rw [List.cons_append, hstep, ih]
    by_cases hx : x ∈ xs
    · rw [if_pos hx, if_pos (List.mem_cons_of_mem _ hx)]
      rfl
    · by_cases hxy : x = y
      · subst hxy
        rw [if_neg hx, if_pos (List.mem_cons_self x xs), List.filter_append]
        simp [firstSeen]
      · have hnotin : x ∉ y :: xs := by simp [hx, hxy]
        rw [if_neg hx, if_neg hnotin, List.filter_append]
        simp [firstSeen, hxy]

theorem mem_of_assocFind {β : Type} {k : String} {m : List (String × β)} {v : β}
    (h : assocFind k m = some v) : (k, v) ∈ m := by
  induction m with
  | nil => simp [assocFind] at h
  | cons p m ih =>
    by_cases hp : p.1 = k
    · simp only [assocFind, if_pos hp] at h
      cases h
      obtain ⟨p1, p2⟩ := p
      cases hp
      exact List.mem_cons_self _ _
    · simp only [assocFind, if_neg hp] at h
      exact List.mem_cons_of_mem _ (ih h)

theorem assocFind_of_mem {β : Type} {k : String} {m : List (String × β)} {v : β}
    (hnd : (m.map Prod.fst).Nodup) (h : (k, v) ∈ m) : assocFind k m = some v := by
  induction m with
  | nil => simp at h
  | cons p m ih =>
    rw [List.map_cons, List.nodup_cons] at hnd
    rcases List.mem_cons.1 h with h1 | h1
    · subst h1
      simp [assocFind]
    · have hk : k ∈ m.map Prod.fst := List.mem_map.2 ⟨(k, v), h1, rfl⟩
      have hp : ¬p.1 = k := fun he => hnd.1 (he ▸ hk)
      simp only [assocFind, if_neg hp]
      exact ih hnd.2 h1

theorem fate_table_lookup (T : List Tracklet) (lbl : String) :
    assocFind lbl (fate_table T) =
      if lbl ∈ T.map Tracklet.fate_label
      then some ((T.filter (fun tr => tr.fate_label = lbl)).map Tracklet.ID)
      else none := by
  induction T using List.reverseRecOn with
  | nil => simp [fate_table, assocFind]
  | append_singleton T t ih =>
    rw [fate_table_append_singleton, ftInsert_assocFind]
    by_cases h : lbl = t.fate_label
    · subst h
      rw [if_pos rfl, ih]
      have hmem : t.fate_label ∈ (T ++ [t]).map Tracklet.fate_label := by simp
      rw [if_pos hmem, List.filter_append]
      have hft : [t].filter (fun tr => tr.fate_label = t.fate_label) = [t] := by
        simp
      rw [hft, List.map_append, List.map_singleton]
      by_cases hm : t.fate_label ∈ T.map Tracklet.fate_label
      · rw [if_pos hm]
      · rw [if_neg hm]
        have hfe : T.filter (fun tr => tr.fate_label = t.fate_label) = [] := by
          rw [List.filter_eq_nil_iff]
          intro a ha hpa
          exact hm (List.mem_map.2 ⟨a, ha, by simpa using hpa⟩)
        rw [hfe]
        simp
    · rw [if_neg h, ih]
      have hft : [t].filter (fun tr => tr.fate_label = lbl) = [] := by
        have hne : ¬(t.fate_label = lbl) := fun he => h he.symm
        simp [hne]
      by_cases hm : lbl ∈ T.map Tracklet.fate_label
      · have hmem : lbl ∈ (T ++ [t]).map Tracklet.fate_label := by simp [hm]
        rw [if_pos hm, if_pos hmem, List.filter_append, hft, List.append_nil]
      · have hmem : lbl ∉ (T ++ [t]).map Tracklet.fate_label := by
          simp only [List.map_append, List.mem_append, List.map_singleton,
            List.mem_singleton]
          rintro (hc | hc)
          · exact hm hc
          · exact h hc
        rw [if_neg hm, if_neg hmem]

theorem fate_table_keys (T : List Tracklet) :
    (fate_table T).map Prod.fst = firstSeen (T.map Tracklet.fate_label) := by
  induction T using List.reverseRecOn with
  | nil => simp [fate_table, firstSeen]
  | append_singleton T t ih =>
    rw [fate_table_append_singleton, ftInsert_map_fst, ih,
      List.map_append, List.map_singleton, firstSeen_append_singleton]
    by_cases hm : t.fate_label ∈ T.map Tracklet.fate_label
    · rw [if_pos ((mem_firstSeen _ _).2 hm), if_pos hm]
    · rw [if_neg (fun hc => hm ((mem_firstSeen _ _).1 hc)), if_neg hm]

theorem fate_table_union (T : List Tracklet) (i : Int) :
    (∃ l ∈ (fate_table T).map Prod.snd, i ∈ l) ↔ i ∈ T.map Tracklet.ID := by
  constructor
  · rintro ⟨l, hl, hil⟩
    rw [List.mem_map] at hl
    obtain ⟨⟨k, l'⟩, hkl, hsnd⟩ := hl
    have hnd : ((fate_table T).map Prod.fst).Nodup := by
      rw [fate_table_keys]; exact nodup_firstSeen _
    have hfind : assocFind k (fate_table T) = some l' := assocFind_of_mem hnd hkl
    rw [fate_table_lookup] at hfind
    by_cases hm : k ∈ T.map Tracklet.fate_label
    · rw [if_pos hm] at hfind
      have hl' : l' = (T.filter (fun tr => tr.fate_label = k)).map Tracklet.ID :=
        (Option.some_injective _ hfind).symm
      subst hl'
      rw [← hsnd] at hil
      rw [List.mem_map] at hil
      obtain ⟨tr, htr, hid⟩ := hil
      exact List.mem_map.2 ⟨tr, (List.mem_filter.1 htr).1, hid⟩
    · rw [if_neg hm] at hfind
      exact absurd hfind (by simp)
  · intro hi
    rw [List.mem_map] at hi
    obtain ⟨t, ht, rfl⟩ := hi
    refine ⟨(T.filter (fun tr => tr.fate_label = t.fate_label)).map Tracklet.ID,
      ?_, ?_⟩
    · have hmem : t.fate_label ∈ T.map Tracklet.fate_label :=
        List.mem_map.2 ⟨t, ht, rfl⟩
      have hfind : assocFind t.fate_label (fate_table T) =
          some ((T.filter (fun tr => tr.fate_label = t.fate_label)).map Tracklet.ID) := by
        rw [fate_table_lookup, if_pos hmem]
      exact List.mem_map.2 ⟨_, mem_of_assocFind hfind, rfl⟩
    · exact List.mem_map.2 ⟨t, List.mem_filter.2 ⟨ht, by simp⟩, rfl⟩

/-- C6: for every Tracklet collection `T`, `fate_table T` maps each fate
label present in `T` to the list of track IDs with that label in input
order (and no other labels), its keys are in first-seen order of the
labels, and the union of its ID lists is exactly the set of IDs of `T`. -/
theorem C6_fate_table_groups_by_label (T : List Tracklet) :
    (∀ lbl, assocFind lbl (fate_table T) =
      (if lbl ∈ T.map Tracklet.fate_label
       then some ((T.filter (fun tr => tr.fate_label = lbl)).map Tracklet.ID)
       else none))
    ∧ (fate_table T).map Prod.fst = firstSeen (T.map Tracklet.fate_label)
    ∧ (∀ i : Int, (∃ l ∈ (fate_table T).map Prod.snd, i ∈ l) ↔
        i ∈ T.map Tracklet.ID) :=
  ⟨fun lbl => fate_table_lookup T lbl, fate_table_keys T,
    fun i => fate_table_union T i⟩

/-!
### C9: the cell-type assertion of `export_all_tracks_JSON`
-/

/-- C9: for every call to `export_all_tracks_JSON` with a `cell_type`
outside `{GFP, RFP, iRFP, Phase, None}`, the operation fails with an
assertion error before any per-track file, archive, or manifest is written
(the file system is returned unchanged). -/
theorem C9_cell_type_assertion (fs : FS) (export_dir : String)
    (tracks : List PyTrack) (cell_type : Option String) (as_zip : Bool)
    (h : cell_type ∉ [some "GFP", some "RFP", some "iRFP", some "Phase",
      (none : Option String)]) :
    export_all_tracks_JSON fs export_dir tracks cell_type as_zip =
      Except.error (PyError.assertionError, fs) := by
  unfold export_all_tracks_JSON
  rw [if_neg h]

/-- Witness for C9 at a concrete bad cell type. -/
theorem C9_cell_type_assertion_witness :
    (some "XYZ") ∉ [some "GFP", some "RFP", some "iRFP", some "Phase",
      (none : Option String)]
    ∧ export_all_tracks_JSON [] "outdir" [] (some "XYZ") true =
      Except.error (PyError.assertionError, []) :=
  ⟨by decide, C9_cell_type_assertion [] "outdir" [] (some "XYZ") true (by decide)⟩

/-!
### C10: empty track lists
-/

/-- C10: for the empty list of tracks, `export`, `export_JSON`,
`export_MATLAB` and `export_HDF` each raise an `IndexError` (from
`tracks[0]`, not the documented `TypeError`) with the file system
unchanged. -/
theorem C10_empty_list_index_error (fs : FS) (fn : String) :
    export_JSON fs fn [] =
      Except.error (PyError.indexError "list index out of range", fs)
    ∧ export_MATLAB fs fn [] =
      Except.error (PyError.indexError "list index out of range", fs)
    ∧ (∀ ds, export_HDF fs fn [] ds =
      Except.error (PyError.indexError "list index out of range", fs))
    ∧ ((splitext fn).2 = "" ∨ (splitext fn).2 ∈ EXPORT_FORMATS →
      export' fs fn [] =
        Except.error (PyError.indexError "list index out of range", fs)) := by
  refine ⟨rfl, rfl, fun ds => rfl, ?_⟩
  intro h
  rcases h with h | h
  · simp only [export', h]
    norm_num [EXPORT_FORMATS]
    rfl
  · simp only [EXPORT_FORMATS, List.mem_cons, List.mem_singleton,
      List.not_mem_nil, or_false] at h
    rcases h with h | h | h <;> simp only [export', h] <;>
      norm_num [EXPORT_FORMATS] <;> rfl

/-- Witness for C10 at a concrete file name with a recognised extension. -/
theorem C10_empty_list_index_error_witness :
    export_JSON [] "x.json" [] =
      Except.error (PyError.indexError "list index out of range", [])
    ∧ ((splitext "x.json").2 = "" ∨ (splitext "x.json").2 ∈ EXPORT_FORMATS)
    ∧ export' [] "x.json" [] =
      Except.error (PyError.indexError "list index out of range", []) :=
  ⟨(C10_empty_list_index_error [] "x.json").1, by decide,
    (C10_empty_list_index_error [] "x.json").2.2.2 (by decide)⟩

/-!
### C2: `export_HDF` on a list of `Tracklet` objects
-/

/-- C2 (the code violates the claim): for every non-empty list of
`Tracklet` objects, `export_HDF` hits the `print 'oops!'` stub and returns
normally — no exception is raised and nothing is written, contradicting
the requirement that this path fail loudly. -/
theorem C2_tracklet_batch_returns_normally (fs : FS) (fn : String)
    (t : Tracklet) (rest : List PyTrack) (ds : List PyTrackObject) :
    export_HDF fs fn (PyTrack.tracklet t :: rest) ds = Except.ok fs := rfl

/-!
### C3: type checking of exporter inputs
-/

/-- Whether a list element is a `btypes.Tracklet`. -/
def isTracklet : PyTrack → Bool
  | PyTrack.tracklet _ => true
  | _ => false

/-- Whether a `PyResult` is a raised `TypeError`. -/
def raisesTypeError : PyResult FS → Bool
  | Except.error (PyError.typeError _, _) => true
  | _ => false

/-- A concrete track used for counterexamples and witnesses. -/
def sampleTracklet : Tracklet :=
  ⟨1, 0, 1, "apoptosis", none, [⟨0, 0, 1, 2, 0, false, 0, 1, [0]⟩]⟩

theorem buildDict_error (tracks : List PyTrack) (d : List (String × TrackDict))
    (h : ∃ x ∈ tracks, isTracklet x = false) :
    ∃ e, buildDict tracks d = Except.error e := by
  induction tracks generalizing d with
  | nil => simp at h
  | cons x rest ih =>
    cases x with
    | tracklet t =>
      obtain ⟨y, hy, hyt⟩ := h
      rcases List.mem_cons.1 hy with h1 | h1
      · rw [h1] at hyt; simp [isTracklet] at hyt
      · exact ih _ ⟨y, h1, hyt⟩
    | refs r => exact ⟨PyError.attributeError "to_dict", rfl⟩
    | other s => exact ⟨PyError.attributeError "to_dict", rfl⟩

theorem getTracklets_error (tracks : List PyTrack)
    (h : ∃ x ∈ tracks, isTracklet x = false) :
    ∃ e, getTracklets tracks = Except.error e := by
  induction tracks with
  | nil => simp at h
  | cons x rest ih =>
    cases x with
    | tracklet t =>
      obtain ⟨y, hy, hyt⟩ := h
      rcases List.mem_cons.1 hy with h1 | h1
      · rw [h1] at hyt; simp [isTracklet] at hyt
      · obtain ⟨e, he⟩ := ih ⟨y, h1, hyt⟩
        exact ⟨e, by simp only [getTracklets, he]⟩
    | refs r => exact ⟨PyError.attributeError "to_array", rfl⟩
    | other s => exact ⟨PyError.attributeError "to_array", rfl⟩

/-- C3 (counterexample): with a valid `Tracklet` in first position and a
non-`Tracklet` second element, none of the exporters raises a `TypeError`
as the claim requires — `export_JSON` (also as routed through `export`)
fails with an `AttributeError` instead (still writing nothing). -/
theorem C3_counterexample_second_element :
    raisesTypeError (export_JSON [] "out.json"
      [PyTrack.tracklet sampleTracklet, PyTrack.other "int"]) = false
    ∧ raisesTypeError (export_MATLAB [] "out.mat"
      [PyTrack.tracklet sampleTracklet, PyTrack.other "int"]) = false
    ∧ raisesTypeError (export' [] "out.json"
      [PyTrack.tracklet sampleTracklet, PyTrack.other "int"]) = false
    ∧ export_JSON [] "out.json"
        [PyTrack.tracklet sampleTracklet, PyTrack.other "int"] =
      Except.error (PyError.attributeError "to_dict", []) :=
  ⟨rfl, rfl, rfl, rfl⟩

/-- C3 (amended): only the first element is type-checked.  If the first
element is not a `Tracklet`, `export_JSON` and `export_MATLAB` (and
`export` when routed to the JSON or MATLAB codec) raise a `TypeError`
before any file is created; a non-`Tracklet` at a later position passes the
type check, and the export instead fails with some other error while still
creating no file. -/
theorem C3_amended_first_element_type_check (fs : FS) (fn : String) :
    (∀ x rest, isTracklet x = false →
      export_JSON fs fn (x :: rest) =
        Except.error (PyError.typeError "Tracks must be of type btypes.Tracklet", fs)
      ∧ export_MATLAB fs fn (x :: rest) =
        Except.error (PyError.typeError "Tracks must be of type btypes.Tracklet", fs))
    ∧ (∀ tracks : List PyTrack, (∃ y ∈ tracks, isTracklet y = false) →
      (∃ e, export_JSON fs fn tracks = Except.error (e, fs))
      ∧ (∃ e, export_MATLAB fs fn tracks = Except.error (e, fs))) := by
  constructor
  · intro x rest hx
    cases x with
    | tracklet t => simp [isTracklet] at hx
    | refs r => exact ⟨rfl, rfl⟩
    | other s => exact ⟨rfl, rfl⟩
  · intro tracks h
    obtain ⟨y, hy, hyt⟩ := h
    cases tracks with
    | nil => simp at hy
    | cons x rest =>
      cases x with
      | tracklet t =>
        have hrest : ∃ y ∈ rest, isTracklet y = false := by
          rcases List.mem_cons.1 hy with h1 | h1
          · rw [h1] at hyt; simp [isTracklet] at hyt
          · exact ⟨y, h1, hyt⟩
        constructor
        · obtain ⟨e, he⟩ := buildDict_error (PyTrack.tracklet t :: rest) [] ⟨y, hy, hyt⟩
          refine ⟨e, ?_⟩
          simp only [export_JSON, check_track_type, he]
        · obtain ⟨e, he⟩ := getTracklets_error (PyTrack.tracklet t :: rest) ⟨y, hy, hyt⟩
          refine ⟨e, ?_⟩
          simp only [export_MATLAB, check_track_type, he]
      | refs r =>
        exact ⟨⟨PyError.typeError "Tracks must be of type btypes.Tracklet", rfl⟩,
          ⟨PyError.typeError "Tracks must be of type btypes.Tracklet", rfl⟩⟩
      | other s =>
        exact ⟨⟨PyError.typeError "Tracks must be of type btypes.Tracklet", rfl⟩,
          ⟨PyError.typeError "Tracks must be of type btypes.Tracklet", rfl⟩⟩

/-- Witness for the amended C3 at concrete inputs. -/
theorem C3_amended_first_element_type_check_witness :
    (isTracklet (PyTrack.other "int") = false
      ∧ export_JSON [] "w.json" [PyTrack.other "int"] =
        Except.error (PyError.typeError "Tracks must be of type btypes.Tracklet", []))
    ∧ ((∃ y ∈ [PyTrack.tracklet sampleTracklet, PyTrack.other "int"],
        isTracklet y = false)
      ∧ ∃ e, export_JSON [] "w.json"
          [PyTrack.tracklet sampleTracklet, PyTrack.other "int"] =
        Except.error (e, [])) :=
  ⟨⟨by decide,
    ((C3_amended_first_element_type_check [] "w.json").1 (PyTrack.other "int") []
      (by decide)).1⟩,
   ⟨⟨PyTrack.other "int", by decide, by decide⟩,
    ((C3_amended_first_element_type_check [] "w.json").2
      [PyTrack.tracklet sampleTracklet, PyTrack.other "int"]
      ⟨PyTrack.other "int", by decide, by decide⟩).1⟩⟩

/-!
### C8: extension handling of `export`
-/

theorem buildDict_ok (ts : List Tracklet) (d : List (String × TrackDict)) :
    ∃ d', buildDict (ts.map PyTrack.tracklet) d = Except.ok d' := by
  induction ts generalizing d with
  | nil => exact ⟨d, rfl⟩
  | cons t ts ih => exact ih _

/-- C8 (counterexample): at `export("x.xyz", tracks)` the raised format
error carries the fixed message `Export format not recognised`; the message
does not name the offending extension `.xyz` (it does not even contain the
character `y`). -/
theorem C8_counterexample_message_lacks_extension :
    export' [] "x.xyz" [PyTrack.tracklet sampleTracklet] =
      Except.error (PyError.valueError "Export format not recognised", [])
    ∧ ¬('y' ∈ "Export format not recognised".data)
    ∧ ('y' ∈ ".xyz".data) :=
  ⟨rfl, by decide, by decide⟩

/-- C8 (amended): for every filename whose extension is non-empty and
not recognised, `export` raises a format error with the fixed message
`Export format not recognised` (which does not name the extension), leaving
the file system unchanged; for every filename with no extension, `export`
defaults to JSON, appends `.json` to the path, and succeeds for valid
(non-empty, all-`Tracklet`) input. -/
theorem C8_amended_extension_dispatch (fs : FS) (fn : String) :
    (∀ tracks root ext, splitext fn = (root, ext) → ext ≠ "" →
      ext ∉ EXPORT_FORMATS →
      export' fs fn tracks =
        Except.error (PyError.valueError "Export format not recognised", fs))
    ∧ ((splitext fn).2 = "" → ∀ ts : List Tracklet, ts ≠ [] →
      ∃ doc, export' fs fn (ts.map PyTrack.tracklet) =
        Except.ok (fs.write (fn ++ ".json") (FileContent.jsonCollection doc))) := by
  constructor
  · intro tracks root ext hsp hne hmem
    have h2 : (splitext fn).2 = ext := by rw [hsp]
    simp only [export', h2, if_neg hne, if_neg hmem]
  · intro h ts hne
    simp only [export', h]
    norm_num [EXPORT_FORMATS]
    cases ts with
    | nil => exact absurd rfl hne
    | cons t ts' =>
      obtain ⟨d', hd'⟩ := buildDict_ok (t :: ts') []
      refine ⟨sortByID d', ?_⟩
      simp only [List.map_cons] at hd'
      simp only [List.map_cons, export_JSON, check_track_type, hd']

/-- Witness for the amended C8 at the spec's two example inputs. -/
theorem C8_amended_extension_dispatch_witness :
    (splitext "x.xyz" = ("x", ".xyz") ∧ (".xyz" : String) ≠ ""
      ∧ ".xyz" ∉ EXPORT_FORMATS
      ∧ export' [] "x.xyz" [PyTrack.tracklet sampleTracklet] =
        Except.error (PyError.valueError "Export format not recognised", []))
    ∧ ((splitext "x").2 = ""
      ∧ ∃ doc, export' [] "x" ([sampleTracklet].map PyTrack.tracklet) =
        Except.ok (FS.write [] "x.json" (FileContent.jsonCollection doc))) :=
  ⟨⟨by decide, by decide, by decide,
    (C8_amended_extension_dispatch [] "x.xyz").1 [PyTrack.tracklet sampleTracklet]
      "x" ".xyz" (by decide) (by decide) (by decide)⟩,
   ⟨by decide,
    (C8_amended_extension_dispatch [] "x").2 (by decide) [sampleTracklet]
      (by decide)⟩⟩

/-!
### C1: the HDF5 reference-track write path
-/

theorem allRefLists_map_refs (rs : List (List PyScalar)) :
    allRefLists (rs.map PyTrack.refs) = some rs := by
  induction rs with
  | nil => rfl
  | cons r rs ih => simp only [List.map_cons, allRefLists, ih]

/-- C1: for a non-empty batch of integer-reference tracks,
`export_HDF` against an existing HDF5 file appends a `tracks` dataset (and,
when a non-empty `dummies` argument is given, a `dummies` dataset) while
leaving the existing `objects` data unchanged; when the file does not exist
it fails with a not-found error, and when the first element of the first
reference list is not an integer it fails with a type error — in both
failure cases writing nothing. -/
theorem C1_reference_track_write (fs : FS) (fn : String) (n : Int)
    (r0tail : List PyScalar) (rs : List (List PyScalar))
    (ds : List PyTrackObject) :
    (∀ f : HDF5File, fs.read fn = some (FileContent.hdf5 f) →
      export_HDF fs fn (((PyScalar.int n :: r0tail) :: rs).map PyTrack.refs) ds =
        Except.ok (fs.write fn (FileContent.hdf5
          ⟨f.objectsGroups, some ((PyScalar.int n :: r0tail) :: rs),
            if ds = [] then f.dummiesData else some ds⟩)))
    ∧ (fs.read fn = none →
      export_HDF fs fn (((PyScalar.int n :: r0tail) :: rs).map PyTrack.refs) ds =
        Except.error (PyError.ioError ("HDF5 file does not exist: " ++ fn), fs))
    ∧ (∀ d rest c, fs.read fn = some c →
      export_HDF fs fn (((PyScalar.nonInt d :: rest) :: rs).map PyTrack.refs) ds =
        Except.error (PyError.typeError "Track references should be integers", fs)) := by
  refine ⟨?_, ?_, ?_⟩
  · intro f hf
    have hex : fs.exists fn = true := by simp [FS.exists, hf]
    simp only [List.map_cons, export_HDF, hex, if_pos, hf, write_tracks,
      allRefLists, allRefLists_map_refs]
    by_cases hds : ds = []
    · simp [hds, write_dummies]
    · simp [hds, write_dummies]
  · intro hf
    have hex : ¬fs.exists fn = true := by simp [FS.exists, hf]
    simp only [List.map_cons, export_HDF, if_neg hex]
  · intro d rest c hf
    have hex : fs.exists fn = true := by simp [FS.exists, hf]
    simp only [List.map_cons, export_HDF, hex, if_pos]

/-- A concrete HDF5 file content for witnesses. -/
def sampleHDF5 : HDF5File :=
  ⟨[⟨"A", [[0, 1, 2, 3, 0]], [[0]]⟩], none, none⟩

/-- Witness for C1: a concrete successful append and a concrete missing-file
failure. -/
theorem C1_reference_track_write_witness :
    (FS.read [("f.hdf5", FileContent.hdf5 sampleHDF5)] "f.hdf5" =
      some (FileContent.hdf5 sampleHDF5)
      ∧ export_HDF [("f.hdf5", FileContent.hdf5 sampleHDF5)] "f.hdf5"
          ([[PyScalar.int 0, PyScalar.int 1]].map PyTrack.refs) [] =
        Except.ok (FS.write [("f.hdf5", FileContent.hdf5 sampleHDF5)] "f.hdf5"
          (FileContent.hdf5 ⟨sampleHDF5.objectsGroups,
            some [[PyScalar.int 0, PyScalar.int 1]],
            if ([] : List PyTrackObject) = [] then sampleHDF5.dummiesData
            else some []⟩)))
    ∧ (FS.read [] "f.hdf5" = none
      ∧ export_HDF [] "f.hdf5"
          ([[PyScalar.int 0, PyScalar.int 1]].map PyTrack.refs) [] =
        Except.error (PyError.ioError ("HDF5 file does not exist: " ++ "f.hdf5"), [])) :=
  ⟨⟨rfl,
    (C1_reference_track_write [("f.hdf5", FileContent.hdf5 sampleHDF5)] "f.hdf5"
      0 [PyScalar.int 1] [] []).1 sampleHDF5 rfl⟩,
   ⟨rfl,
    (C1_reference_track_write [] "f.hdf5" 0 [PyScalar.int 1] [] []).2.1 rfl⟩⟩

/-!
### C7: `export_JSON` orders by ascending track ID
-/

theorem dictInsert_fresh (d : List (String × TrackDict)) (k : String)
    (v : TrackDict) (h : k ∉ d.map Prod.fst) :
    dictInsert d k v = d ++ [(k, v)] := by
  unfold dictInsert
  rw [if_neg h]

theorem buildDict_nodup_keys (ts : List Tracklet) (d : List (String × TrackDict))
    (hd : (d.map Prod.fst ++ ts.map keyOf).Nodup) :
    buildDict (ts.map PyTrack.tracklet) d =
      Except.ok (d ++ ts.map (fun t => (keyOf t, t.to_dict))) := by
  induction ts generalizing d with
  | nil => simp [buildDict]
  | cons t ts ih =>
    have hfresh : keyOf t ∉ d.map Prod.fst := by
      rw [List.nodup_append] at hd
      intro hc
      exact hd.2.2 hc (by simp)
    have hd' : ((d ++ [(keyOf t, t.to_dict)]).map Prod.fst ++ ts.map keyOf).Nodup := by
      rw [List.map_append, List.map_singleton, List.append_assoc,
        List.singleton_append]
      simpa using hd
    simp only [List.map_cons, buildDict, dictInsert_fresh d (keyOf t) t.to_dict hfresh]
    rw [ih _ hd', List.append_assoc, List.singleton_append]

theorem sortByID_sorted (d : List (String × TrackDict)) :
    (sortByID d).Sorted (fun a b => a.2.ID ≤ b.2.ID) := by
  haveI h1 : IsTotal (String × TrackDict) (fun a b => a.2.ID ≤ b.2.ID) :=
    ⟨fun a b => Int.le_total a.2.ID b.2.ID⟩
  haveI h2 : IsTrans (String × TrackDict) (fun a b => a.2.ID ≤ b.2.ID) :=
    ⟨fun a b c hab hbc => le_trans hab hbc⟩
  exact List.sorted_insertionSort _ _

theorem sortByID_perm (d : List (String × TrackDict)) : (sortByID d).Perm d :=
  List.perm_insertionSort _ _

theorem pairwise_lt_of_sorted_le_nodup (d : List (String × TrackDict))
    (hle : d.Sorted (fun a b => a.2.ID ≤ b.2.ID))
    (hnd : (d.map (fun p => p.2.ID)).Nodup) :
    d.Pairwise (fun a b => a.2.ID < b.2.ID) := by
  induction d with
  | nil => exact List.Pairwise.nil
  | cons p d ih =>
    rw [List.sorted_cons] at hle
    rw [List.map_cons, List.nodup_cons] at hnd
    refine List.Pairwise.cons ?_ (ih hle.2 hnd.2)
    intro q hq
    refine lt_of_le_of_ne (hle.1 q hq) ?_
    intro he
    exact hnd.1 (he ▸ List.mem_map.2 ⟨q, hq, rfl⟩)

theorem eq_of_perm_of_pairwise_lt {d1 d2 : List (String × TrackDict)}
    (hp : d1.Perm d2)
    (h1 : d1.Pairwise (fun a b => a.2.ID < b.2.ID))
    (h2 : d2.Pairwise (fun a b => a.2.ID < b.2.ID)) : d1 = d2 := by
  haveI : IsAntisymm (String × TrackDict) (fun a b => a.2.ID < b.2.ID) :=
    ⟨fun a b hab hba => absurd hab (lt_asymm hba)⟩
  exact List.eq_of_perm_of_sorted hp h1 h2

/-- C7: for every non-empty `Tracklet` collection (with the §3
uniqueness invariant, expressed as distinct dictionary keys), `export_JSON`
writes a mapping whose key for each track is `Tracklet_<ID>` and whose
entries are ordered by strictly ascending numeric track ID — and the
written document is the same for every input order of the tracks. -/
theorem C7_json_collection_sorted_by_ID (fs : FS) (fn : String)
    (ts : List Tracklet) (hne : ts ≠ []) (hk : (ts.map keyOf).Nodup) :
    ∃ doc, export_JSON fs fn (ts.map PyTrack.tracklet) =
        Except.ok (fs.write fn (FileContent.jsonCollection doc))
      ∧ doc.Perm (ts.map (fun t => (keyOf t, t.to_dict)))
      ∧ (∀ p ∈ doc, p.1 = "Tracklet_" ++ toString p.2.ID)
      ∧ doc.Pairwise (fun a b => a.2.ID < b.2.ID)
      ∧ (∀ ts' : List Tracklet, ts.Perm ts' →
          export_JSON fs fn (ts'.map PyTrack.tracklet) =
            export_JSON fs fn (ts.map PyTrack.tracklet)) := by
  have hids : (ts.map Tracklet.ID).Nodup := by
    have : ts.map keyOf = (ts.map Tracklet.ID).map
        (fun i => "Tracklet_" ++ toString i) := by
      rw [List.map_map]; rfl
    rw [this] at hk
    exact List.Nodup.of_map _ hk
  -- evaluate export_JSON on an all-Tracklet batch with distinct keys
  have hrun : ∀ (u : List Tracklet), u ≠ [] → (u.map keyOf).Nodup →
      export_JSON fs fn (u.map PyTrack.tracklet) =
        Except.ok (fs.write fn (FileContent.jsonCollection
          (sortByID (u.map (fun t => (keyOf t, t.to_dict)))))) := by
    intro u hu hku
    have hbd := buildDict_nodup_keys u [] (by simpa using hku)
    cases u with
    | nil => exact absurd rfl hu
    | cons t u' =>
      simp only [List.map_cons] at hbd
      simp only [List.map_cons, export_JSON, check_track_type, hbd,
        List.nil_append]
  have hdocsorted : ∀ (u : List Tracklet), (u.map Tracklet.ID).Nodup →
      (sortByID (u.map (fun t => (keyOf t, t.to_dict)))).Pairwise
        (fun a b => a.2.ID < b.2.ID) := by
    intro u hu
    refine pairwise_lt_of_sorted_le_nodup _ (sortByID_sorted _) ?_
    have hperm : ((sortByID (u.map (fun t => (keyOf t, t.to_dict)))).map
        (fun p => p.2.ID)).Perm (u.map Tracklet.ID) := by
      have h1 := (sortByID_perm (u.map (fun t => (keyOf t, t.to_dict)))).map
        (fun p => p.2.ID)
      have h2 : (u.map (fun t => (keyOf t, t.to_dict))).map (fun p => p.2.ID) =
          u.map Tracklet.ID := by rw [List.map_map]; rfl
      rw [h2] at h1
      exact h1
    exact hperm.nodup_iff.2 hu
  refine ⟨sortByID (ts.map (fun t => (keyOf t, t.to_dict))),
    hrun ts hne hk, sortByID_perm _, ?_, hdocsorted ts hids, ?_⟩
  · intro p hp
    have hp' := (sortByID_perm (ts.map (fun t => (keyOf t, t.to_dict)))).subset hp
    rw [List.mem_map] at hp'
    obtain ⟨t, _, rfl⟩ := hp'
    rfl
  · intro ts' hperm
    have hne' : ts' ≠ [] := by
      intro hc
      subst hc
      exact hne hperm.eq_nil
    have hk' : (ts'.map keyOf).Nodup := ((hperm.map keyOf).nodup_iff).1 hk
    have hids' : (ts'.map Tracklet.ID).Nodup :=
      ((hperm.map Tracklet.ID).nodup_iff).1 hids
    rw [hrun ts' hne' hk', hrun ts hne hk]
    have hdocperm : (sortByID (ts'.map (fun t => (keyOf t, t.to_dict)))).Perm
        (sortByID (ts.map (fun t => (keyOf t, t.to_dict)))) := by
      exact (sortByID_perm _).trans
        (((hperm.map (fun t => (keyOf t, t.to_dict))).symm).trans
          (sortByID_perm _).symm)
    rw [eq_of_perm_of_pairwise_lt hdocperm (hdocsorted ts' hids')
      (hdocsorted ts hids)]

/-- A second concrete track (larger ID) used for witnesses. -/
def sampleTracklet2 : Tracklet :=
  ⟨2, 0, 2, "interphase", none, [⟨1, 1, 3, 4, 0, false, 0, 1, [0]⟩]⟩

/-- Witness for C7 at a concrete two-track collection given in descending
ID order. -/
theorem C7_json_collection_sorted_by_ID_witness :
    (([sampleTracklet2, sampleTracklet] : List Tracklet) ≠ [])
    ∧ (([sampleTracklet2, sampleTracklet].map keyOf).Nodup)
    ∧ (∃ doc, export_JSON [] "out.json"
          ([sampleTracklet2, sampleTracklet].map PyTrack.tracklet) =
        Except.ok (FS.write [] "out.json" (FileContent.jsonCollection doc))
      ∧ doc.Perm ([sampleTracklet2, sampleTracklet].map
          (fun t => (keyOf t, t.to_dict)))
      ∧ (∀ p ∈ doc, p.1 = "Tracklet_" ++ toString p.2.ID)
      ∧ doc.Pairwise (fun a b => a.2.ID < b.2.ID)
      ∧ (∀ ts' : List Tracklet, ([sampleTracklet2, sampleTracklet] : List Tracklet).Perm ts' →
          export_JSON [] "out.json" (ts'.map PyTrack.tracklet) =
            export_JSON [] "out.json"
              ([sampleTracklet2, sampleTracklet].map PyTrack.tracklet))) :=
  ⟨by decide, by decide,
    C7_json_collection_sorted_by_ID [] "out.json"
      [sampleTracklet2, sampleTracklet] (by decide) (by decide)⟩

/-!
### C4: the current-schema `objects` reader
-/

/-- The ID sequence `ID, ID+1, ..., ID+n-1` assigned by the readers. -/
def idsFrom (ID : Int) : Nat → List Int
  | 0 => []
  | n + 1 => ID :: idsFrom (ID + 1) n

/-- The `type` values assigned by the current-schema reader: each group's
objects all carry the 1-based index of their class group. -/
def typesOf (ci : Int) : List ObjClassGroup → List Int
  | [] => []
  | g :: gs => List.replicate g.coords.length (ci + 1) ++ typesOf (ci + 1) gs

theorem idsFrom_add (a b : Nat) : ∀ ID : Int,
    idsFrom ID (a + b) = idsFrom ID a ++ idsFrom (ID + (a : Int)) b := by
  induction a with
  | zero => intro ID; simp [idsFrom]
  | succ a ih =>
    intro ID
    have : a + 1 + b = (a + b) + 1 := by omega
    rw [this]
    simp only [idsFrom, ih (ID + 1), List.cons_append]
    have : ID + 1 + (a : Int) = ID + ((a : Nat) + 1 : Nat) := by push_cast; ring
    rw [this]

theorem curRows_ok (cs ls : List (List ℚ)) : ∀ (ID : Int) (ty : Int),
    ls.length = cs.length → (∀ r ∈ cs, 4 ≤ r.length) → (∀ r ∈ ls, r ≠ []) →
    ∃ os, curRows ID ty cs ls = Except.ok os
      ∧ os.length = cs.length
      ∧ os.map (fun o => o.ID) = idsFrom ID cs.length
      ∧ os.map (fun o => o.type) = List.replicate cs.length ty
      ∧ (∀ o ∈ os, o.dummy = false ∧ ∃ k : Int, o.t = (k : ℚ)) := by
  induction cs generalizing ls with
  | nil =>
    intro ID ty hlen _ _
    exact ⟨[], rfl, rfl, rfl, rfl, by simp⟩
  | cons c cs ih =>
    intro ID ty hlen hc hl
    cases ls with
    | nil => simp at hlen
    | cons l ls' =>
      have hc0 : 4 ≤ c.length := hc c (List.mem_cons_self _ _)
      have hl0 : l ≠ [] := hl l (List.mem_cons_self _ _)
      have hlget : l.get? 0 = some (l.get ⟨0, by cases l with
        | nil => exact absurd rfl hl0
        | cons a l => simp⟩) := List.get?_eq_get _
      have h0 : c.get? 0 = some (c.get ⟨0, by omega⟩) := List.get?_eq_get _
      have h1 : c.get? 1 = some (c.get ⟨1, by omega⟩) := List.get?_eq_get _
      have h2 : c.get? 2 = some (c.get ⟨2, by omega⟩) := List.get?_eq_get _
      have h3 : c.get? 3 = some (c.get ⟨3, by omega⟩) := List.get?_eq_get _
      have hlen' : ls'.length = cs.length := by simpa using hlen
      obtain ⟨os, hos, hoslen, hosid, hosty, hosprop⟩ :=
        ih ls' (ID + 1) ty hlen' (fun r hr => hc r (List.mem_cons_of_mem _ hr))
          (fun r hr => hl r (List.mem_cons_of_mem _ hr))
      refine ⟨⟨ID, ((truncQ (c.get ⟨0, by omega⟩) : Int) : ℚ), c.get ⟨1, by omega⟩,
        c.get ⟨2, by omega⟩, c.get ⟨3, by omega⟩, false, l.get ⟨0, by cases l with
        | nil => exact absurd rfl hl0
        | cons a l => simp⟩, [0], ty⟩ :: os, ?_, ?_, ?_, ?_, ?_⟩
      · simp only [curRows, new_PyTrackObject_cur, hlget, h0, h1, h2, h3, hos]
      · simp [hoslen]
      · simp only [List.map_cons, hosid, List.length_cons, idsFrom]
      · simp only [List.map_cons, hosty, List.length_cons, List.replicate]
      · intro o hmem
        rcases List.mem_cons.1 hmem with h | h
        · subst h
          exact ⟨rfl, truncQ (c.get ⟨0, by omega⟩), rfl⟩
        · exact hosprop o h

theorem curGroups_ok (gs : List ObjClassGroup) : ∀ (ID : Int) (ci : Int),
    (∀ g ∈ gs, g.labels.length = g.coords.length
      ∧ (∀ r ∈ g.coords, 4 ≤ r.length) ∧ (∀ r ∈ g.labels, r ≠ [])) →
    ∃ os, curGroups ID ci gs = Except.ok os
      ∧ os.length = (gs.map (fun g => g.coords.length)).sum
      ∧ os.map (fun o => o.ID) = idsFrom ID (gs.map (fun g => g.coords.length)).sum
      ∧ os.map (fun o => o.type) = typesOf ci gs
      ∧ (∀ o ∈ os, o.dummy = false ∧ ∃ k : Int, o.t = (k : ℚ)) := by
  induction gs with
  | nil =>
    intro ID ci _
    exact ⟨[], rfl, rfl, rfl, rfl, by simp⟩
  | cons g gs ih =>
    intro ID ci hwf
    obtain ⟨hg1, hg2, hg3⟩ := hwf g (List.mem_cons_self _ _)
    obtain ⟨os1, e1, len1, id1, ty1, pr1⟩ := curRows_ok g.coords g.labels ID (ci + 1) hg1 hg2 hg3
    obtain ⟨os2, e2, len2, id2, ty2, pr2⟩ :=
      ih (ID + (g.coords.length : Int)) (ci + 1)
        (fun g' hg' => hwf g' (List.mem_cons_of_mem _ hg'))
    refine ⟨os1 ++ os2, ?_, ?_, ?_, ?_, ?_⟩
    · simp only [curGroups, e1, e2]
    · simp [len1, len2]
    · rw [List.map_append, id1, id2, List.map_cons, List.sum_cons,
        idsFrom_add]
    · rw [List.map_append, ty1, ty2]
      rfl
    · intro o hmem
      rcases List.mem_append.1 hmem with h | h
      · exact pr1 o h
      · exact pr2 o h

/-- C4: for every current-schema HDF5 file whose `objects` group holds
three classes with coordinate row counts `[3, 2, 4]` (well-formed rows and
matching labels), the reader returns 9 objects with IDs `0..8` assigned in
class order, `type` values `1,1,1,2,2,3,3,3,3` (the 1-based class-group
index, independent of the coordinate column values), every object
non-dummy and with integral `t`. -/
theorem C4_current_schema_read (f : HDF5File) (g1 g2 g3 : ObjClassGroup)
    (hg : f.objectsGroups = [g1, g2, g3])
    (hn1 : g1.coords.length = 3) (hn2 : g2.coords.length = 2)
    (hn3 : g3.coords.length = 4)
    (hwf : ∀ g ∈ [g1, g2, g3], g.labels.length = g.coords.length
      ∧ (∀ r ∈ g.coords, 4 ≤ r.length) ∧ (∀ r ∈ g.labels, r ≠ [])) :
    ∃ os, HDF5_objects f = Except.ok os
      ∧ os.length = 9
      ∧ os.map (fun o => o.ID) = [0, 1, 2, 3, 4, 5, 6, 7, 8]
      ∧ os.map (fun o => o.type) = [1, 1, 1, 2, 2, 3, 3, 3, 3]
      ∧ (∀ o ∈ os, o.dummy = false ∧ ∃ k : Int, o.t = (k : ℚ)) := by
  obtain ⟨os, e, hlen, hid, hty, hpr⟩ := curGroups_ok [g1, g2, g3] 0 0 hwf
  have hsum : ([g1, g2, g3].map (fun g => g.coords.length)).sum = 9 := by
    simp [hn1, hn2, hn3]
  refine ⟨os, ?_, ?_, ?_, ?_, hpr⟩
  · rw [HDF5_objects, hg]
    exact e
  · rw [hlen, hsum]
  · rw [hid, hsum]
    decide
  · rw [hty]
    simp only [typesOf, hn1, hn2, hn3]
    decide

/-- Concrete class groups with row counts 3, 2 and 4 for the C4 witness. -/
def groupA : ObjClassGroup :=
  ⟨"A", [[0, 1, 2, 3, 9], [0, 1, 2, 3, 9], [0, 1, 2, 3, 9]], [[7], [7], [7]]⟩

def groupB : ObjClassGroup :=
  ⟨"B", [[0, 1, 2, 3, 9], [0, 1, 2, 3, 9]], [[7], [7]]⟩

def groupC : ObjClassGroup :=
  ⟨"C", [[0, 1, 2, 3, 9], [0, 1, 2, 3, 9], [0, 1, 2, 3, 9], [0, 1, 2, 3, 9]],
    [[7], [7], [7], [7]]⟩

def sampleCurFile : HDF5File := ⟨[groupA, groupB, groupC], none, none⟩

/-- Witness for C4 at a concrete current-schema file. -/
theorem C4_current_schema_read_witness :
    (sampleCurFile.objectsGroups = [groupA, groupB, groupC]
      ∧ groupA.coords.length = 3 ∧ groupB.coords.length = 2
      ∧ groupC.coords.length = 4
      ∧ (∀ g ∈ [groupA, groupB, groupC], g.labels.length = g.coords.length
        ∧ (∀ r ∈ g.coords, 4 ≤ r.length) ∧ (∀ r ∈ g.labels, r ≠ [])))
    ∧ (∃ os, HDF5_objects sampleCurFile = Except.ok os
      ∧ os.length = 9
      ∧ os.map (fun o => o.ID) = [0, 1, 2, 3, 4, 5, 6, 7, 8]
      ∧ os.map (fun o => o.type) = [1, 1, 1, 2, 2, 3, 3, 3, 3]
      ∧ (∀ o ∈ os, o.dummy = false ∧ ∃ k : Int, o.t = (k : ℚ))) :=
  ⟨⟨rfl, by decide, by decide, by decide, by decide⟩,
    C4_current_schema_read sampleCurFile groupA groupB groupC rfl
      (by decide) (by decide) (by decide) (by decide)⟩

/-!
### C5: the legacy-schema `objects` reader
-/

/-- Well-formedness of an optional labels dataset against a coordinate
dataset: when present it has the same row count and non-empty rows. -/
def wfLabels (fd : FrameData) : Prop :=
  match fd.labels with
  | none => True
  | some ls => ls.length = fd.coords.length ∧ ∀ r ∈ ls, r ≠ []

theorem legacyRows_ok_none (cs : List (List ℚ)) : ∀ ID : Int,
    (∀ r ∈ cs, 5 ≤ r.length) →
    ∃ os, legacyRows ID cs none = Except.ok os
      ∧ os.length = cs.length
      ∧ os.map (fun o => o.ID) = idsFrom ID cs.length
      ∧ os.map (fun o => o.type) = cs.map (fun r => truncQ (r.getD 4 0))
      ∧ os.map (fun o => o.t) = cs.map (fun r => r.getD 0 0)
      ∧ ∀ o ∈ os, o.dummy = false := by
  induction cs with
  | nil => intro ID _; exact ⟨[], rfl, rfl, rfl, rfl, rfl, by simp⟩
  | cons c cs ih =>
    intro ID hc
    have hc0 : 5 ≤ c.length := hc c (List.mem_cons_self _ _)
    have h0 : c.get? 0 = some (c.get ⟨0, by omega⟩) := List.get?_eq_get _
    have h1 : c.get? 1 = some (c.get ⟨1, by omega⟩) := List.get?_eq_get _
    have h2 : c.get? 2 = some (c.get ⟨2, by omega⟩) := List.get?_eq_get _
    have h3 : c.get? 3 = some (c.get ⟨3, by omega⟩) := List.get?_eq_get _
    have h4 : c.get? 4 = some (c.get ⟨4, by omega⟩) := List.get?_eq_get _
    obtain ⟨os, hos, hlen, hid, hty, ht, hd⟩ :=
      ih (ID + 1) (fun r hr => hc r (List.mem_cons_of_mem _ hr))
    refine ⟨⟨ID, c.get ⟨0, by omega⟩, c.get ⟨1, by omega⟩, c.get ⟨2, by omega⟩,
      c.get ⟨3, by omega⟩, false, 0, [0], truncQ (c.get ⟨4, by omega⟩)⟩ :: os,
      ?_, ?_, ?_, ?_, ?_, ?_⟩
    · simp only [legacyRows, h4, new_PyTrackObject_legacy, h0, h1, h2, h3, hos]
    · simp [hlen]
    · simp only [List.map_cons, hid, List.length_cons, idsFrom]
    · simp only [List.map_cons, hty]
      congr 1
      rw [List.getD_eq_getD_get?, h4]
      rfl
    · simp only [List.map_cons, ht]
      congr 1
      rw [List.getD_eq_getD_get?, h0]
      rfl
    · intro o hmem
      rcases List.mem_cons.1 hmem with h | h
      · subst h; rfl
      · exact hd o h

theorem legacyRows_ok_some (cs : List (List ℚ)) : ∀ (ls : List (List ℚ)) (ID : Int),
    (∀ r ∈ cs, 5 ≤ r.length) → ls.length = cs.length → (∀ r ∈ ls, r ≠ []) →
    ∃ os, legacyRows ID cs (some ls) = Except.ok os
      ∧ os.length = cs.length
      ∧ os.map (fun o => o.ID) = idsFrom ID cs.length
      ∧ os.map (fun o => o.type) = cs.map (fun r => truncQ (r.getD 4 0))
      ∧ os.map (fun o => o.t) = cs.map (fun r => r.getD 0 0)
      ∧ ∀ o ∈ os, o.dummy = false := by
  induction cs with
  | nil => intro ls ID _ _ _; exact ⟨[], rfl, rfl, rfl, rfl, rfl, by simp⟩
  | cons c cs ih =>
    intro ls ID hc hlen hl
    cases ls with
    | nil => simp at hlen
    | cons l ls' =>
      have hc0 : 5 ≤ c.length := hc c (List.mem_cons_self _ _)
      have hl0 : l ≠ [] := hl l (List.mem_cons_self _ _)
      have hlget : l.get? 0 = some (l.get ⟨0, by
        cases l with
        | nil => exact absurd rfl hl0
        | cons a l => simp⟩) := List.get?_eq_get _
      have h0 : c.get? 0 = some (c.get ⟨0, by omega⟩) := List.get?_eq_get _
      have h1 : c.get? 1 = some (c.get ⟨1, by omega⟩) := List.get?_eq_get _
      have h2 : c.get? 2 = some (c.get ⟨2, by omega⟩) := List.get?_eq_get _
      have h3 : c.get? 3 = some (c.get ⟨3, by omega⟩) := List.get?_eq_get _
      have h4 : c.get? 4 = some (c.get ⟨4, by omega⟩) := List.get?_eq_get _
      have hlen' : ls'.length = cs.length := by simpa using hlen
      obtain ⟨os, hos, hoslen, hid, hty, ht, hd⟩ :=
        ih ls' (ID + 1) (fun r hr => hc r (List.mem_cons_of_mem _ hr)) hlen'
          (fun r hr => hl r (List.mem_cons_of_mem _ hr))
      refine ⟨⟨ID, c.get ⟨0, by omega⟩, c.get ⟨1, by omega⟩, c.get ⟨2, by omega⟩,
        c.get ⟨3, by omega⟩, false, l.get ⟨0, by
          cases l with
          | nil => exact absurd rfl hl0
          | cons a l => simp⟩, [0], truncQ (c.get ⟨4, by omega⟩)⟩ :: os,
        ?_, ?_, ?_, ?_, ?_, ?_⟩
      · have hdrop : (l :: ls').drop 1 = ls' := rfl
        simp only [legacyRows, List.get?, hlget, h4, new_PyTrackObject_legacy,
          h0, h1, h2, h3, hdrop, hos]
      · simp [hoslen]
      · simp only [List.map_cons, hid, List.length_cons, idsFrom]
      · simp only [List.map_cons, hty]
        congr 1
        rw [List.getD_eq_getD_get?, h4]
        rfl
      · simp only [List.map_cons, ht]
        congr 1
        rw [List.getD_eq_getD_get?, h0]
        rfl
      · intro o hmem
        rcases List.mem_cons.1 hmem with h | h
        · subst h; rfl
        · exact hd o h

theorem legacyFrame_ok (f : LegacyFile) (name : String) (fd : FrameData)
    (ID : Int) (hfind : assocFind name f.frames = some fd)
    (hc : ∀ r ∈ fd.coords, 5 ≤ r.length) (hl : wfLabels fd) :
    ∃ os, legacyFrame f ID name = Except.ok os
      ∧ os.length = fd.coords.length
      ∧ os.map (fun o => o.ID) = idsFrom ID fd.coords.length
      ∧ os.map (fun o => o.type) = fd.coords.map (fun r => truncQ (r.getD 4 0))
      ∧ os.map (fun o => o.t) = fd.coords.map (fun r => r.getD 0 0)
      ∧ ∀ o ∈ os, o.dummy = false := by
  have h0 : legacyFrame f ID name =
      (match fd.labels with
       | some ls' =>
         if ls'.length = fd.coords.length then legacyRows ID fd.coords (some ls')
         else Except.error PyError.assertionError
       | none => legacyRows ID fd.coords none) := by
    unfold legacyFrame
    rw [hfind]
  rcases hls : fd.labels with _ | ls
  · have hstep : legacyFrame f ID name = legacyRows ID fd.coords none := by
      rw [h0, hls]
    rw [hstep]
    exact legacyRows_ok_none fd.coords ID hc
  · unfold wfLabels at hl
    rw [hls] at hl
    obtain ⟨hlen, hrow⟩ := hl
    have hstep : legacyFrame f ID name = legacyRows ID fd.coords (some ls) := by
      rw [h0, hls]
      show (if ls.length = fd.coords.length then legacyRows ID fd.coords (some ls)
        else Except.error PyError.assertionError) = legacyRows ID fd.coords (some ls)
      rw [if_pos hlen]
    rw [hstep]
    exact legacyRows_ok_some fd.coords ls ID hc hlen hrow

/-- C5: the legacy reader processes frame groups in ascending order of
the numeral embedded in their names — for frames stored as `frame_2`,
`frame_10`, `frame_1` the processing order is 1, 2, 10 (not lexicographic) —
assigns IDs globally increasing from 0 across the whole file, and takes
each object's `type` from coordinate column index 4. -/
theorem C5_legacy_numeral_order (f : LegacyFile) (f1 f2 f10 : FrameData)
    (hf : f.frames = [("frame_2", f2), ("frame_10", f10), ("frame_1", f1)])
    (hc1 : ∀ r ∈ f1.coords, 5 ≤ r.length) (hl1 : wfLabels f1)
    (hc2 : ∀ r ∈ f2.coords, 5 ≤ r.length) (hl2 : wfLabels f2)
    (hc10 : ∀ r ∈ f10.coords, 5 ≤ r.length) (hl10 : wfLabels f10) :
    sortFrameNames ["frame_2", "frame_10", "frame_1"] =
      ["frame_1", "frame_2", "frame_10"]
    ∧ ∃ os, legacy_objects f = Except.ok os
      ∧ os.length = f1.coords.length + (f2.coords.length + f10.coords.length)
      ∧ os.map (fun o => o.ID) =
          idsFrom 0 (f1.coords.length + (f2.coords.length + f10.coords.length))
      ∧ os.map (fun o => o.type) =
          f1.coords.map (fun r => truncQ (r.getD 4 0))
          ++ f2.coords.map (fun r => truncQ (r.getD 4 0))
          ++ f10.coords.map (fun r => truncQ (r.getD 4 0))
      ∧ os.map (fun o => o.t) =
          f1.coords.map (fun r => r.getD 0 0)
          ++ f2.coords.map (fun r => r.getD 0 0)
          ++ f10.coords.map (fun r => r.getD 0 0)
      ∧ ∀ o ∈ os, o.dummy = false := by
  have hsort : sortFrameNames ["frame_2", "frame_10", "frame_1"] =
      ["frame_1", "frame_2", "frame_10"] := by decide
  refine ⟨hsort, ?_⟩
  have hnames : f.frames.map Prod.fst = ["frame_2", "frame_10", "frame_1"] := by
    rw [hf]; rfl
  have hfind1 : assocFind "frame_1" f.frames = some f1 := by rw [hf]; rfl
  have hfind2 : assocFind "frame_2" f.frames = some f2 := by rw [hf]; rfl
  have hfind10 : assocFind "frame_10" f.frames = some f10 := by rw [hf]; rfl
  obtain ⟨os1, e1, len1, id1, ty1, t1, d1⟩ :=
    legacyFrame_ok f "frame_1" f1 0 hfind1 hc1 hl1
  obtain ⟨os2, e2, len2, id2, ty2, t2, d2⟩ :=
    legacyFrame_ok f "frame_2" f2 (0 + (os1.length : Int)) hfind2 hc2 hl2
  obtain ⟨os3, e3, len3, id3, ty3, t3, d3⟩ :=
    legacyFrame_ok f "frame_10" f10
      ((0 + (os1.length : Int)) + (os2.length : Int)) hfind10 hc10 hl10
  have hcond : (["frame_2", "frame_10", "frame_1"].all
      (fun n => (lambda_frm n).isSome)) = true := by decide
  have hrun : legacy_objects f = Except.ok (os1 ++ (os2 ++ (os3 ++ []))) := by
    unfold legacy_objects
    rw [hnames, if_pos hcond, hsort]
    simp only [legacyFramesLoop, e1, e2, e3]
  rw [len1] at id2
  rw [len1, len2] at id3
  rw [hrun]
  refine ⟨os1 ++ (os2 ++ (os3 ++ [])), rfl, ?_, ?_, ?_, ?_, ?_⟩
  · simp only [List.length_append, List.length_nil, len1, len2, len3]
    omega
  · rw [idsFrom_add, idsFrom_add]
    simp [List.map_append, id1, id2, id3]
  · simp [List.map_append, ty1, ty2, ty3]
  · simp [List.map_append, t1, t2, t3]
  · intro o hmem
    rcases List.mem_append.1 hmem with h | h
    · exact d1 o h
    · rcases List.mem_append.1 h with h2m | h2m
      · exact d2 o h2m
      · rcases List.mem_append.1 h2m with h3m | h3m
        · exact d3 o h3m
        · simp at h3m

/-- Concrete legacy frames for the C5 witness. -/
def legacyF1 : FrameData := ⟨[[4, 1, 2, 3, 7]], none⟩

def legacyF2 : FrameData := ⟨[[5, 1, 2, 3, 8]], none⟩

def legacyF10 : FrameData := ⟨[[6, 1, 2, 3, 9]], none⟩

def sampleLegacyFile : LegacyFile :=
  ⟨[("frame_2", legacyF2), ("frame_10", legacyF10), ("frame_1", legacyF1)]⟩

/-- Witness for C5 at a concrete legacy file with out-of-order frame
names. -/
theorem C5_legacy_numeral_order_witness :
    (sampleLegacyFile.frames =
      [("frame_2", legacyF2), ("frame_10", legacyF10), ("frame_1", legacyF1)]
      ∧ (∀ r ∈ legacyF1.coords, 5 ≤ r.length)
      ∧ (∀ r ∈ legacyF2.coords, 5 ≤ r.length)
      ∧ (∀ r ∈ legacyF10.coords, 5 ≤ r.length))
    ∧ (sortFrameNames ["frame_2", "frame_10", "frame_1"] =
      ["frame_1", "frame_2", "frame_10"]
    ∧ ∃ os, legacy_objects sampleLegacyFile = Except.ok os
      ∧ os.length = legacyF1.coords.length +
          (legacyF2.coords.length + legacyF10.coords.length)
      ∧ os.map (fun o => o.ID) =
          idsFrom 0 (legacyF1.coords.length +
            (legacyF2.coords.length + legacyF10.coords.length))
      ∧ os.map (fun o => o.type) =
          legacyF1.coords.map (fun r => truncQ (r.getD 4 0))
          ++ legacyF2.coords.map (fun r => truncQ (r.getD 4 0))
          ++ legacyF10.coords.map (fun r => truncQ (r.getD 4 0))
      ∧ os.map (fun o => o.t) =
          legacyF1.coords.map (fun r => r.getD 0 0)
          ++ legacyF2.coords.map (fun r => r.getD 0 0)
          ++ legacyF10.coords.map (fun r => r.getD 0 0)
      ∧ ∀ o ∈ os, o.dummy = false) :=
  ⟨⟨rfl, by decide, by decide, by decide⟩,
    C5_legacy_numeral_order sampleLegacyFile legacyF1 legacyF2 legacyF10 rfl
      (by decide) trivial (by decide) trivial (by decide) trivial⟩
